import Mathlib

/-!
Verification of the shell/path utility module (`conda/utils.py`).

The Python source is shallowly embedded: strings are Lean `String`s
(`List Char` underneath), regular-expression substitutions are embedded as
direct scanners specialised to the two fixed patterns the source uses, and
the one side-effecting operation (temp-file creation) is threaded as an
explicit collaborator-provided file name.  Python's `os.path.join`/`abspath`
on already-absolute, already-normal inputs are modelled as plain string
concatenation with the platform separator, matching how the module uses them.
-/

set_option maxRecDepth 10000

/-- Named characters used throughout, to keep quoting of the embedding
    itself readable.  `dqc` is the double-quote character. -/
def dqc : Char := Char.ofNat 34

/-- Single-quote character. -/
def sqc : Char := Char.ofNat 39

/-- Backslash character. -/
def bsc : Char := Char.ofNat 92

/-- Python `str.replace("/", "\\")` acts characterwise. -/
def slashToBackslash (cs : List Char) : List Char :=
  cs.map fun c => if c = '/' then bsc else c

/-- Characters matched by Python's regex class `\s` (ASCII range). -/
def pySpace (c : Char) : Prop :=
  c = ' ' ∨ c = '\t' ∨ c = '\n' ∨ c = '\r' ∨ c = Char.ofNat 11 ∨ c = Char.ofNat 12

instance (c : Char) : Decidable (pySpace c) := by
  unfold pySpace; infer_instance

/-- Strip a literal prefix (the spliced-in `root_prefix` of the source's
    regex, taken literally); `none` when the input does not start with it. -/
def dropLit : List Char → List Char → Option (List Char)
  | [], cs => some cs
  | _ :: _, [] => none
  | p :: ps, c :: cs => if c = p then dropLit ps cs else none

/-- Greedy body of the source's drive pattern
    `(?:(?![:\s]/)[^:*?"<>])*` : consume characters outside `:*?"<>`,
    stopping when a whitespace-or-colon character is immediately followed
    by `/` (the negative lookahead).  Returns (consumed, rest). -/
def drvBody : List Char → List Char × List Char
  | [] => ([], [])
  | c :: rest =>
    if (c = ':' ∨ pySpace c) ∧ (match rest with | '/' :: _ => true | _ => false) = true then
      ([], c :: rest)
    else if c = ':' ∨ c = '*' ∨ c = '?' ∨ c = dqc ∨ c = '<' ∨ c = '>' then
      ([], c :: rest)
    else
      let p := drvBody rest
      (c :: p.1, p.2)

/-- Attempt to match the source's `path_re`
    (`root_prefix + "(/[a-zA-Z]/(?:(?![:\s]/)[^:*?\"<>])*)"`) at the head of
    the input; on success returns the drive letter, the matched body and the
    remainder of the input after the whole match. -/
def tryMatch (rp cs : List Char) : Option (Char × List Char × List Char) :=
  match dropLit rp cs with
  | none => none
  | some rest =>
    match rest with
    | a :: l :: b :: body =>
      if a = '/' ∧ l.isAlpha ∧ b = '/' then
        let p := drvBody body
        some (l, p.1, p.2)
      else none
    | _ => none

/-- One `re.sub` pass for `path_re`: scan left to right, replacing each
    match by `_translation` (drive letter, colon, backslashed tail) and
    resuming after it; fuel bounds the number of scan steps (always run
    with fuel = input length, which suffices since every step consumes at
    least one character). -/
def subDriveFuel (rp : List Char) : Nat → List Char → List Char
  | 0, cs => cs
  | _ + 1, [] => []
  | fuel + 1, c :: rest =>
    match tryMatch rp (c :: rest) with
    | some (l, body, rem) =>
      l :: ':' :: bsc :: slashToBackslash body ++ subDriveFuel rp fuel rem
    | none => c :: subDriveFuel rp fuel rest

/-- The first substitution of `unix_path_to_win`. -/
def subDrive (rp cs : List Char) : List Char :=
  subDriveFuel rp cs.length cs

/-- Scan of the second substitution of `unix_path_to_win`
    (`re.sub(":([a-zA-Z]):\\\\", lambda m: ";" + m.group(0)[1] + ":\\", ...)`)
    which rewrites each non-overlapping `:<letter>:\` occurrence to
    `;<letter>:\`; fuel = input length suffices. -/
def subDriveListFuel : Nat → List Char → List Char
  | 0, cs => cs
  | _ + 1, [] => []
  | fuel + 1, c :: rest =>
    match rest, c with
    | l :: ':' :: b :: rest2, ':' =>
      if l.isAlpha ∧ b = bsc then ';' :: l :: ':' :: bsc :: subDriveListFuel fuel rest2
      else c :: subDriveListFuel fuel rest
    | _, _ => c :: subDriveListFuel fuel rest

/-- The second substitution of `unix_path_to_win`. -/
def subDriveList (cs : List Char) : List Char :=
  subDriveListFuel cs.length cs

/-- The "already a windows path" test of `unix_path_to_win` (line 36):
    `len(path) > 1 and (";" in path or (path[1] == ":" and path.count(":") == 1))`. -/
def winPathLike (cs : List Char) : Prop :=
  1 < cs.length ∧ (';' ∈ cs ∨ (cs[1]? = some ':' ∧ cs.count ':' = 1))

instance (cs : List Char) : Decidable (winPathLike cs) := by
  unfold winPathLike; infer_instance

/-- Embedding of `unix_path_to_win(path, root_prefix="")` (utils.py lines
    31-49).  The spliced-in `root_prefix` is treated as a literal string,
    as in the source's two call sites (`""` and `"/cygdrive"`). -/
def unix_path_to_win (path : String) (rp : String := "") : String :=
  if winPathLike path.data then
    String.mk (slashToBackslash path.data)
  else
    String.mk (subDriveList (subDrive rp.data path.data))

/-- Embedding of `path_identity` (utils.py lines 26-28). -/
def path_identity (path : String) : String := path

/-- Embedding of `cygwin_path_to_win` (utils.py lines 57-58). -/
def cygwin_path_to_win (path : String) : String :=
  unix_path_to_win path ("/cygdrive")

/-- Python `" ".join` / `sep.join` at the character-list level (single
    space separator, as used by `quote_for_shell`). -/
def joinSpace : List (List Char) → List Char
  | [] => []
  | [a] => a
  | a :: b :: t => a ++ ' ' :: joinSpace (b :: t)

/-- Python `sep.join` on strings. -/
def pyJoin (sep : String) : List String → String
  | [] => ""
  | [a] => a
  | a :: b :: t => a ++ sep ++ pyJoin sep (b :: t)

/-- The quote character chosen for one argument by the POSIX branch of
    `quote_for_shell` (utils.py lines 277-286): single quote if the
    argument contains a double quote, else double quote if it contains a
    single quote, else nothing if it has neither space nor newline, else
    double quote. -/
def posixQuoteChar (a : List Char) : List Char :=
  if dqc ∈ a then [sqc]
  else if sqc ∈ a then [dqc]
  else if ¬ ' ' ∈ a ∧ ¬ '\n' ∈ a then []
  else [dqc]

/-- One quoted argument, `quote + arg + quote` (utils.py line 287). -/
def posixQuoteArg (a : List Char) : List Char :=
  posixQuoteChar a ++ a ++ posixQuoteChar a

/-- Inner loop of CPython's `subprocess.list2cmdline` (imported by the
    source at line 240; modelled from the CPython implementation, a
    stdlib collaborator): processes one argument's characters, tracking
    the pending backslash buffer; returns the emitted characters and the
    backslash buffer left over at the end of the argument. -/
def l2cInner : List Char → List Char → List Char × List Char
  | [], buf => ([], buf)
  | c :: rest, buf =>
    if c = bsc then l2cInner rest (buf ++ [bsc])
    else if c = dqc then
      let p := l2cInner rest []
      (buf ++ buf ++ [bsc, dqc] ++ p.1, p.2)
    else
      let p := l2cInner rest []
      (buf ++ [c] ++ p.1, p.2)

/-- One argument as rendered by `list2cmdline`: double-quoted when it
    contains a space or tab or is empty, with trailing backslashes doubled
    before the closing quote. -/
def l2cArg (a : List Char) : List Char :=
  let needquote := ' ' ∈ a ∨ '\t' ∈ a ∨ a = []
  let p := l2cInner a []
  (if needquote then [dqc] else []) ++ p.1 ++ p.2 ++
    (if needquote then p.2 ++ [dqc] else [])

/-- CPython's `subprocess.list2cmdline` (the Windows native argv-joining
    convention; stdlib collaborator used by `quote_for_shell` for
    `cmd.exe`). -/
def list2cmdline (arguments : List String) : String :=
  String.mk (joinSpace (arguments.map fun a => l2cArg a.data))

/-- Embedding of `quote_for_shell(arguments, shell=None)` (utils.py lines
    264-288).  `onWinGlobal` stands for the module-level `on_win` flag that
    picks the default shell when none is given. -/
def quote_for_shell (arguments : List String) (shell : Option String := none)
    (onWinGlobal : Bool := false) : String :=
  let sh := shell.getD (if onWinGlobal then "cmd.exe" else "bash")
  if sh = "cmd.exe" then list2cmdline arguments
  else String.mk (joinSpace (arguments.map fun a => posixQuoteArg a.data))

/-- Python `repr` of a string (printable-ASCII domain, which covers every
    use below): single-quoted unless the string contains a single quote
    and no double quote; backslash, the chosen quote, and newline, tab and
    carriage return are escaped. -/
def pyReprStr (s : String) : String :=
  let q := if sqc ∈ s.data ∧ ¬ dqc ∈ s.data then dqc else sqc
  let esc := s.data.foldr (fun c acc =>
    if c = bsc then bsc :: bsc :: acc
    else if c = q then bsc :: c :: acc
    else if c = '\n' then bsc :: 'n' :: acc
    else if c = '\t' then bsc :: 't' :: acc
    else if c = '\r' then bsc :: 'r' :: acc
    else c :: acc) []
  String.mk (q :: esc ++ [q])

/-- Python `str` of a list of strings, as produced by
    `"{0}".format(arguments)` at utils.py line 345. -/
def pyStrList (l : List String) : String :=
  "[" ++ pyJoin (", ") (l.map pyReprStr) ++ "]"

example : unix_path_to_win ("/c/Users/x") ("") = ("c:" ++ String.mk [bsc] ++ "Users" ++ String.mk [bsc] ++ "x") := by decide

example : unix_path_to_win ("C:" ++ String.mk [bsc] ++ "x") ("") = ("C:" ++ String.mk [bsc] ++ "x") := by decide

example : cygwin_path_to_win ("/cygdrive/d/a/b:/cygdrive/e/f") = ("d:" ++ String.mk [bsc] ++ "a" ++ String.mk [bsc] ++ "b;e:" ++ String.mk [bsc] ++ "f") := by decide

/-- A shell dialect descriptor: one entry of the `shells` registry
    (utils.py lines 96-214).  Field names follow the source's dict keys;
    `exe` is optional because the two base templates omit it. -/
structure ShellDialect where
  exe : Option String
  binpath : String
  echo : String
  env_script_suffix : String
  nul : String
  path_from : String → String
  path_to : String → String
  pathsep : String
  printdefaultenv : String
  printpath : String
  printps1 : String
  promptvar : String
  sep : String
  set_var : String
  shell_args : List String
  shell_suffix : String
  slash_convert : String × String
  source_setup : String
  test_echo_extra : String
  var_format : String

/-- Embedding of `unix_shell_base` (utils.py lines 96-116), the POSIX base
    template (no `exe` entry). -/
def unix_shell_base : ShellDialect where
  exe := none
  binpath := "/bin/"
  echo := "echo"
  env_script_suffix := ".sh"
  nul := "2>/dev/null"
  path_from := path_identity
  path_to := path_identity
  pathsep := ":"
  printdefaultenv := "echo $CONDA_DEFAULT_ENV"
  printpath := "echo $PATH"
  printps1 := "echo $CONDA_PROMPT_MODIFIER"
  promptvar := "PS1"
  sep := "/"
  set_var := "export "
  shell_args := ["-l", "-c"]
  shell_suffix := ""
  slash_convert := ("\\", "/")
  source_setup := "source"
  test_echo_extra := ""
  var_format := "${}"

/-- The `"dash"` entry of the POSIX `shells` table:
    `dict(unix_shell_base, exe="dash", source_setup=".")`. -/
def dashDialect : ShellDialect :=
  { unix_shell_base with exe := some "dash", source_setup := "." }

/-- Embedding of the POSIX-host `shells` registry (utils.py lines
    199-214, the `else` branch of `if on_win`); lookup by name. -/
def shells (name : String) : Option ShellDialect :=
  if name = "bash" then some { unix_shell_base with exe := some "bash" }
  else if name = "dash" then some dashDialect
  else if name = "zsh" then some { unix_shell_base with exe := some "zsh" }
  else if name = "fish" then some { unix_shell_base with exe := some "fish", pathsep := " " }
  else none

/-- Helper for substring containment: does the first list start with the
    second? -/
def listStartsWith : List Char → List Char → Bool
  | _, [] => true
  | [], _ :: _ => false
  | c :: cs, p :: ps => c = p && listStartsWith cs ps

/-- Substring containment on character lists (Python's `in` on strings). -/
def listHasSub : List Char → List Char → Bool
  | [], n => n.isEmpty
  | c :: t, n => listStartsWith (c :: t) n || listHasSub t n

/-- The multiline detection of `wrap_subprocess_call` (utils.py lines
    294-295): exactly one argument which contains a newline. -/
def multilineArgs : List String → Bool
  | [a] => '\n' ∈ a.data
  | _ => false

/-- Result of `wrap_subprocess_call`: the sequence of `fh.write` payloads
    (in order), the script path handed back by the temp-file collaborator,
    and the OS-level command vector. -/
structure WrapResult where
  writes : List String
  scriptCaller : String
  commandArgs : List String
deriving DecidableEq

/-- Point-update of an environment (used to state the fallback claims). -/
def envSet (env : String → Option String) (k v : String) : String → Option String :=
  fun k2 => if k2 = k then some v else env k2

/-- Embedding of `wrap_subprocess_call(on_win, root_prefix, prefix,
    dev_mode, debug_wrapper_scripts, arguments)` (utils.py lines 291-351).
    `env` is `os.environ` (a missing `COMSPEC` raises `KeyError`, embedded
    as `Except.error`); `platform` is `sys.platform`; `tmpName` is the
    unique file name produced by the temp-file collaborator
    (`Utf8NamedTemporaryFile`), whose creation is the call's only side
    effect.  `os.path.join`/`abspath` on the absolute prefixes are
    modelled as concatenation with the host's separator. -/
def wrap_subprocess_call (onWin : Bool) (rootPrefix envPrefix : String)
    (devMode debugWrapperScripts : Bool) (arguments : List String)
    (env : String → Option String) (platform : String) (tmpName : String) :
    Except String WrapResult :=
  let multiline := multilineArgs arguments
  if onWin then
    match env ("COMSPEC") with
    | none => Except.error ("COMSPEC")
    | some comspec =>
      let condaBat := (env ("CONDA_BAT")).getD (rootPrefix ++ "\\condabin\\conda.bat")
      let writes := [
        "@FOR /F \"tokens=100\" %%F IN ('chcp') DO @SET CONDA_OLD_CHCP=%%F\n",
        "@chcp 65001>NUL\n",
        "@CALL \"" ++ condaBat ++ "\" activate \"" ++ envPrefix ++ "\"\n",
        (if multiline then arguments.headD ("") ++ "\n"
         else "@" ++ quote_for_shell arguments none onWin ++ "\n"),
        "@chcp %CONDA_OLD_CHCP%>NUL\n"]
      Except.ok ⟨writes, tmpName, [comspec, "/d", "/c", tmpName]⟩
  else
    let shellPath := if listHasSub platform.data ("bsd").data then "sh" else "bash"
    let condaExe : List String :=
      if devMode then [rootPrefix ++ "/bin/python", "-m", "conda"]
      else [(env ("CONDA_EXE")).getD (rootPrefix ++ "/bin/conda")]
    let hookQuoted := quote_for_shell (condaExe ++ ["shell.posix", "hook"]) none onWin
    let writes :=
      (if debugWrapperScripts then
        [">&2 echo '*** environment before ***'\n>&2 env\n",
         ">&2 echo \"$(" ++ hookQuoted ++ ")\"\n"]
       else []) ++
      ["eval \"$(" ++ hookQuoted ++ ")\"\n",
       "conda activate " ++ quote_for_shell [envPrefix] none onWin ++ "\n"] ++
      (if debugWrapperScripts then [">&2 echo '*** environment after ***'\n>&2 env\n"] else []) ++
      [(if multiline then pyJoin (" ") arguments ++ "\n"
        else if arguments.length = 1 then pyStrList arguments ++ "\n"
        else quote_for_shell arguments none onWin ++ "\n")]
    Except.ok ⟨writes, tmpName, [shellPath, "-x", tmpName]⟩

/-- True exactly on `Except.ok` (the call did not raise). -/
def exceptOk {ε α : Type} : Except ε α → Bool
  | Except.ok _ => true
  | Except.error _ => false

example (c : Char) : subDriveListFuel 1 [c] = [c] := rfl

/-- The POSIX quoting rule as the specification words it: per argument,
    single quotes if it contains a double quote, else double quotes if it
    contains a single quote, else bare if it has neither space nor
    newline, else double quotes; `quote + arg + quote`, space-joined. -/
def posixQuoteSpec (arguments : List String) : String :=
  String.mk (joinSpace (arguments.map fun a =>
    (if dqc ∈ a.data then [sqc]
     else if sqc ∈ a.data then [dqc]
     else if ¬ ' ' ∈ a.data ∧ ¬ '\n' ∈ a.data then []
     else [dqc]) ++ a.data ++
    (if dqc ∈ a.data then [sqc]
     else if sqc ∈ a.data then [dqc]
     else if ¬ ' ' ∈ a.data ∧ ¬ '\n' ∈ a.data then []
     else [dqc])))

/-- C1: for a POSIX-family shell, `quote_for_shell` is the space-joined
    concatenation of `quote + arg + quote` with the quote character chosen
    by the priority rule (double quote present ⇒ single quotes; else
    single quote present ⇒ double quotes; else bare when no space and no
    newline; else double quotes); in particular
    `quote(["a b", "c\"d"])` is `"a b" 'c"d'`. -/
theorem quote_for_shell_posix_priority (arguments : List String) (shell : String)
    (g : Bool) (h : shell ≠ "cmd.exe") :
    quote_for_shell arguments (some shell) g = posixQuoteSpec arguments ∧
    quote_for_shell ["a b", "c\"d"] (some "bash") g = "\"a b\" 'c\"d'" := by
  constructor
  · show (if shell = "cmd.exe" then _ else _) = _
    rw [if_neg h]
    rfl
  · rfl

/-- Witness for `quote_for_shell_posix_priority` at a concrete shell. -/
theorem quote_for_shell_posix_priority_witness :
    ("bash" : String) ≠ "cmd.exe" ∧
    (quote_for_shell ["ab", "c d"] (some "bash") false = posixQuoteSpec ["ab", "c d"] ∧
     quote_for_shell ["a b", "c\"d"] (some "bash") false = "\"a b\" 'c\"d'") :=
  ⟨by decide, quote_for_shell_posix_priority ["ab", "c d"] "bash" false (by decide)⟩

/-- C3 (code bug): on a POSIX host with exactly one newline-free argument,
    line 345 formats the whole argument *list* (`"{0}\n".format(arguments)`),
    so the script's final command line is Python's repr of the list,
    `['echo']`, not the lone raw argument `echo` that the surrounding code
    and the specification intend. -/
theorem wrap_posix_single_arg_list_repr :
    wrap_subprocess_call false ("/opt/conda") ("/env") false false ["echo"]
        (fun _ => none) ("linux") ("/tmp/x")
      = Except.ok ⟨["eval \"$(/opt/conda/bin/conda shell.posix hook)\"\n",
                    "conda activate /env\n",
                    pyStrList ["echo"] ++ "\n"], "/tmp/x", ["bash", "-x", "/tmp/x"]⟩
    ∧ pyStrList ["echo"] ++ "\n" = "['echo']\n"
    ∧ ("['echo']\n" : String) ≠ "echo\n" :=
  ⟨rfl, by decide, by decide⟩

/-- C4 counterexample: the drive letter keeps the case of the input, so
    `/c/Users/x` does not map to `C:\Users\x`. -/
theorem unix_path_to_win_drive_case_cex :
    unix_path_to_win ("/c/Users/x") ("") ≠ "C:\\Users\\x" := by decide

/-- C4 amended: `unix_path_to_win` with empty cygdrive prefix maps
    `/c/Users/x` to `c:\Users\x` — the drive letter's case is preserved,
    and the upper-case input `/C/Users/x` gives `C:\Users\x`. -/
theorem unix_path_to_win_drive_case_amended :
    unix_path_to_win ("/c/Users/x") ("") = "c:\\Users\\x" ∧
    unix_path_to_win ("/C/Users/x") ("") = "C:\\Users\\x" := by decide

/-- C9: the POSIX registry's `"dash"` entry overrides `source_setup` to
    `"."` (and names the executable), and agrees with the POSIX base
    template on every other field. -/
theorem dash_dialect_matches_posix_base :
    shells ("dash") = some dashDialect ∧
    dashDialect.source_setup = "." ∧
    dashDialect.exe = some "dash" ∧
    dashDialect.binpath = unix_shell_base.binpath ∧
    dashDialect.echo = unix_shell_base.echo ∧
    dashDialect.env_script_suffix = unix_shell_base.env_script_suffix ∧
    dashDialect.nul = unix_shell_base.nul ∧
    dashDialect.path_from = unix_shell_base.path_from ∧
    dashDialect.path_to = unix_shell_base.path_to ∧
    dashDialect.pathsep = unix_shell_base.pathsep ∧
    dashDialect.printdefaultenv = unix_shell_base.printdefaultenv ∧
    dashDialect.printpath = unix_shell_base.printpath ∧
    dashDialect.printps1 = unix_shell_base.printps1 ∧
    dashDialect.promptvar = unix_shell_base.promptvar ∧
    dashDialect.sep = unix_shell_base.sep ∧
    dashDialect.set_var = unix_shell_base.set_var ∧
    dashDialect.shell_args = unix_shell_base.shell_args ∧
    dashDialect.shell_suffix = unix_shell_base.shell_suffix ∧
    dashDialect.slash_convert = unix_shell_base.slash_convert ∧
    dashDialect.test_echo_extra = unix_shell_base.test_echo_extra ∧
    dashDialect.var_format = unix_shell_base.var_format :=
  ⟨rfl, rfl, rfl, rfl, rfl, rfl, rfl, rfl, rfl, rfl, rfl,
   rfl, rfl, rfl, rfl, rfl, rfl, rfl, rfl, rfl, rfl⟩

/-- Lemma: a successful literal-prefix strip accounts for exactly the
    prefix's length. -/
theorem dropLit_length : ∀ (ps cs r : List Char), dropLit ps cs = some r →
    r.length + ps.length = cs.length := by
  intro ps
  induction ps with
  | nil =>
    intro cs r h
    simp only [dropLit, Option.some.injEq] at h
    subst h; simp
  | cons p ps ih =>
    intro cs r h
    cases cs with
    | nil => simp [dropLit] at h
    | cons c cs =>
      by_cases hc : c = p
      · simp only [dropLit, if_pos hc] at h
        have := ih cs r h
        simp [List.length_cons]
        omega
      · simp [dropLit, hc] at h

/-- Lemma: the drive pattern needs the prefix plus at least three more
    characters, so it never matches a shorter input. -/
theorem tryMatch_none_of_short (rp cs : List Char) (h : cs.length < rp.length + 3) :
    tryMatch rp cs = none := by
  unfold tryMatch
  cases hd : dropLit rp cs with
  | none => rfl
  | some rest =>
    have hl := dropLit_length rp cs rest hd
    match rest with
    | [] => rfl
    | [_] => rfl
    | [_, _] => rfl
    | _ :: _ :: _ :: _ =>
      exfalso
      simp [List.length_cons] at hl
      omega

/-- Lemma: the first substitution leaves inputs of length at most one
    unchanged. -/
theorem subDrive_short (rp cs : List Char) (h : cs.length ≤ 1) :
    subDrive rp cs = cs := by
  match cs with
  | [] => rfl
  | [c] =>
    show subDriveFuel rp 1 [c] = [c]
    unfold subDriveFuel
    rw [tryMatch_none_of_short rp [c] (by simp)]
    rfl
  | _ :: _ :: _ => simp [List.length_cons] at h

/-- Lemma: the second substitution leaves inputs of length at most one
    unchanged. -/
theorem subDriveList_short (cs : List Char) (h : cs.length ≤ 1) :
    subDriveList cs = cs := by
  match cs with
  | [] => rfl
  | [c] => rfl
  | _ :: _ :: _ => simp [List.length_cons] at h

/-- Shared lemma: `unix_path_to_win` is the identity on strings of length
    at most one (detection branch needs length over one; neither pattern
    can match). -/
theorem upw_short (rp p : String) (h : p.data.length ≤ 1) :
    unix_path_to_win p rp = p := by
  unfold unix_path_to_win
  rw [if_neg (fun hw => absurd hw.1 (by omega))]
  rw [subDrive_short _ _ h, subDriveList_short _ h]

/-- C10: for every cygdrive prefix and every input of length at most one
    (the empty string, `";"`, ...), `unix_path_to_win` returns the input
    unchanged — the already-Windows detection does not fire and neither
    substitution finds a match. -/
theorem unix_path_to_win_short_input_unchanged (rp path : String)
    (h : path.length ≤ 1) :
    unix_path_to_win path rp = path ∧
    ¬ winPathLike path.data ∧
    subDrive rp.data path.data = path.data ∧
    subDriveList path.data = path.data := by
  have hd : path.data.length ≤ 1 := h
  exact ⟨upw_short rp path hd,
         fun hw => absurd hw.1 (by omega),
         subDrive_short _ _ hd,
         subDriveList_short _ hd⟩

/-- Slash-to-backslash replacement at the `String` level (what line 38's
    `path.replace("/", "\\")` returns). -/
def slashReplace (p : String) : String :=
  String.mk (slashToBackslash p.data)

/-- Lemma: the replacement output contains no forward slash. -/
theorem slashToBackslash_no_slash (l : List Char) : '/' ∉ slashToBackslash l := by
  intro hm
  rcases List.mem_map.mp hm with ⟨c, _, hc⟩
  by_cases h : c = '/'
  · rw [if_pos h] at hc
    exact absurd hc (by decide)
  · rw [if_neg h] at hc
    exact h hc

/-- Lemma: the replacement is the identity on slash-free inputs. -/
theorem slashToBackslash_id (l : List Char) (h : '/' ∉ l) :
    slashToBackslash l = l := by
  induction l with
  | nil => rfl
  | cons c t ih =>
    have hc : ¬ c = '/' := fun e => h (e ▸ List.mem_cons_self c t)
    show (if c = '/' then bsc else c) :: slashToBackslash t = c :: t
    rw [if_neg hc, ih (fun m => h (List.mem_cons_of_mem c m))]

/-- Lemma: the replacement preserves semicolons. -/
theorem slashToBackslash_mem_semi (l : List Char) (h : ';' ∈ l) :
    ';' ∈ slashToBackslash l :=
  List.mem_map.mpr ⟨';', h, by decide⟩

/-- Lemma: cons step for counting a character. -/
theorem count_char_cons (a c : Char) (t : List Char) :
    List.count a (c :: t) = List.count a t + (if c = a then 1 else 0) := by
  simp [List.count_cons]

/-- Lemma: the replacement preserves the count of colons. -/
theorem slashToBackslash_count_colon (l : List Char) :
    (slashToBackslash l).count ':' = l.count ':' := by
  induction l with
  | nil => rfl
  | cons c t ih =>
    have hu : slashToBackslash (c :: t) =
        (if c = '/' then bsc else c) :: slashToBackslash t := rfl
    rw [hu, count_char_cons, count_char_cons, ih]
    by_cases hc : c = '/'
    · rw [if_pos hc, hc, if_neg (by decide), if_neg (by decide)]
    · rw [if_neg hc]

/-- Lemma: the replacement preserves the second character when it is a
    colon. -/
theorem slashToBackslash_getElem_colon (l : List Char) (h : l[1]? = some ':') :
    (slashToBackslash l)[1]? = some ':' := by
  show (l.map _)[1]? = _
  rw [List.getElem?_map, h]
  rfl

/-- C5: on input that already looks like a Windows path (contains `;`, or
    has a drive colon at index 1 as its only colon), `unix_path_to_win`
    returns the input with `/` replaced by `\`, and applying it twice
    equals applying it once. -/
theorem unix_path_to_win_idempotent_on_windows_input (p rp : String)
    (h : ';' ∈ p.data ∨ (p.data[1]? = some ':' ∧ p.data.count ':' = 1)) :
    unix_path_to_win (unix_path_to_win p rp) rp = unix_path_to_win p rp ∧
    unix_path_to_win p rp = slashReplace p := by
  by_cases hlen : 1 < p.data.length
  · have hw : winPathLike p.data := ⟨hlen, h⟩
    have h1 : unix_path_to_win p rp = slashReplace p := by
      unfold unix_path_to_win
      rw [if_pos hw]
      rfl
    refine ⟨?_, h1⟩
    rw [h1]
    have hlen2 : (slashToBackslash p.data).length = p.data.length := by
      show (p.data.map _).length = _
      rw [List.length_map]
    have hw2 : winPathLike (slashReplace p).data := by
      refine ⟨by rw [show (slashReplace p).data = slashToBackslash p.data from rfl, hlen2]; exact hlen, ?_⟩
      rcases h with hs | ⟨hg, hc⟩
      · exact Or.inl (slashToBackslash_mem_semi _ hs)
      · exact Or.inr ⟨slashToBackslash_getElem_colon _ hg,
                      (slashToBackslash_count_colon _).trans hc⟩
    show unix_path_to_win (slashReplace p) rp = slashReplace p
    unfold unix_path_to_win
    rw [if_pos hw2]
    show String.mk (slashToBackslash (slashToBackslash p.data)) = _
    rw [slashToBackslash_id _ (slashToBackslash_no_slash _)]
    rfl
  · have hle : p.data.length ≤ 1 := by omega
    have hsemi : p.data = [';'] := by
      rcases h with hs | ⟨hg, _⟩
      · match hd : p.data, hle with
        | [], _ => rw [hd] at hs; exact absurd hs (by simp)
        | [c], _ =>
          rw [hd] at hs
          rcases List.mem_singleton.mp hs with rfl
          rfl
      · rcases List.getElem?_eq_some_iff.mp hg with ⟨hlt, _⟩
        omega
    have hp : p = String.mk [';'] := by
      cases p with
      | mk d => rw [show d = [';'] from hsemi]
    subst hp
    have e : unix_path_to_win (String.mk [';']) rp = String.mk [';'] :=
      upw_short rp _ (by decide)
    rw [e, e]
    exact ⟨rfl, by decide⟩

/-- Witness for `unix_path_to_win_idempotent_on_windows_input` on a
    semicolon-bearing path. -/
theorem unix_path_to_win_idempotent_on_windows_input_witness :
    (';' ∈ ("a;/b" : String).data ∨
     (("a;/b" : String).data[1]? = some ':' ∧ ("a;/b" : String).data.count ':' = 1)) ∧
    (unix_path_to_win (unix_path_to_win ("a;/b") ("")) ("") = unix_path_to_win ("a;/b") ("") ∧
     unix_path_to_win ("a;/b") ("") = slashReplace ("a;/b")) :=
  ⟨by decide, unix_path_to_win_idempotent_on_windows_input ("a;/b") ("") (by decide)⟩

/-- Witness for `unix_path_to_win_short_input_unchanged` at `";"` with the
    cygwin prefix. -/
theorem unix_path_to_win_short_input_unchanged_witness :
    (";" : String).length ≤ 1 ∧
    (unix_path_to_win (";") ("/cygdrive") = ";" ∧
     ¬ winPathLike (";" : String).data ∧
     subDrive ("/cygdrive" : String).data (";" : String).data = (";" : String).data ∧
     subDriveList (";" : String).data = (";" : String).data) :=
  ⟨by decide, unix_path_to_win_short_input_unchanged ("/cygdrive") (";") (by decide)⟩

example : quote_for_shell ["a b", "c\"d"] (some "bash") false = "\"a b\" 'c\"d'" := by decide

example : quote_for_shell [""] (some "bash") false = "" := by decide

example : pyStrList ["echo"] = "['echo']" := by decide

example : list2cmdline ["a b", "c\"d", ""] = "\"a b\" c\\\"d \"\"" := by decide

example :
    wrap_subprocess_call false ("/r") ("/p") false false ["a\nb"] (fun _ => none) ("linux") ("/t")
      = Except.ok ⟨["eval \"$(/r/bin/conda shell.posix hook)\"\n",
                    "conda activate /p\n", "a\nb\n"], "/t", ["bash", "-x", "/t"]⟩ := rfl

example :
    wrap_subprocess_call false ("/r") ("/p") false false ["echo"] (fun _ => none) ("linux") ("/t")
      = Except.ok ⟨["eval \"$(/r/bin/conda shell.posix hook)\"\n",
                    "conda activate /p\n", "['echo']\n"], "/t", ["bash", "-x", "/t"]⟩ := rfl

example :
    wrap_subprocess_call true ("C:") ("D:") false false ["echo"]
      (fun k => if k = "COMSPEC" then some ("cmd.exe") else none) ("win32") ("/t")
      = Except.ok ⟨["@FOR /F \"tokens=100\" %%F IN ('chcp') DO @SET CONDA_OLD_CHCP=%%F\n",
                    "@chcp 65001>NUL\n",
                    "@CALL \"C:\\condabin\\conda.bat\" activate \"D:\"\n",
                    "@echo\n",
                    "@chcp %CONDA_OLD_CHCP%>NUL\n"], "/t",
                   ["cmd.exe", "/d", "/c", "/t"]⟩ := rfl

/-- Lemma: reading the key just written. -/
theorem envSet_self (env : String → Option String) (k v : String) :
    envSet env k v k = some v := if_pos rfl

/-- Lemma: reading a different key sees the original environment. -/
theorem envSet_ne (env : String → Option String) (k v k2 : String) (h : k2 ≠ k) :
    envSet env k v k2 = env k2 := if_neg h

/-- C2: a call with exactly one argument containing a newline writes that
    argument verbatim (followed only by the terminating newline) as the
    script's final command section — index 3 of the Windows script's five
    writes, the last write of the POSIX script; and multiline mode is off
    whenever there is not exactly one argument or the single argument has
    no newline. -/
theorem wrap_multiline_verbatim (onWin : Bool) (rootPrefix envPrefix : String)
    (devMode dbg : Bool) (a : String) (env : String → Option String)
    (platform tmpName : String) (r : WrapResult)
    (hok : wrap_subprocess_call onWin rootPrefix envPrefix devMode dbg [a] env
            platform tmpName = Except.ok r)
    (hnl : '\n' ∈ a.data) :
    ((if onWin then r.writes[3]? else r.writes.getLast?) = some (a ++ "\n")) ∧
    (∀ args : List String, (args.length ≠ 1 ∨ ∀ b ∈ args, ¬ '\n' ∈ b.data) →
      multilineArgs args = false) := by
  have hml : multilineArgs [a] = true := decide_eq_true hnl
  constructor
  · cases onWin with
    | true =>
      cases henv : env ("COMSPEC") with
      | none =>
        simp only [wrap_subprocess_call, henv, if_true] at hok
        exact absurd hok (by simp)
      | some c =>
        simp only [wrap_subprocess_call, henv, hml, if_true] at hok
        injection hok with h
        subst h
        rfl
    | false =>
      cases dbg with
      | false =>
        simp only [wrap_subprocess_call, hml, if_true, if_false] at hok
        injection hok with h
        subst h
        rfl
      | true =>
        simp only [wrap_subprocess_call, hml, if_true, if_false] at hok
        injection hok with h
        subst h
        rfl
  · intro args hargs
    match args, hargs with
    | [], _ => rfl
    | [b], h =>
      rcases h with h1 | h2
      · exact absurd rfl h1
      · exact decide_eq_false (h2 b (List.mem_singleton_self b))
    | _ :: _ :: _, _ => rfl

/-- Witness for `wrap_multiline_verbatim` on a POSIX host. -/
theorem wrap_multiline_verbatim_witness :
    (wrap_subprocess_call false ("/r") ("/p") false false ["a\nb"] (fun _ => none)
        ("linux") ("/t")
      = Except.ok ⟨["eval \"$(/r/bin/conda shell.posix hook)\"\n",
                    "conda activate /p\n", "a\nb\n"], "/t", ["bash", "-x", "/t"]⟩) ∧
    ('\n' ∈ ("a\nb" : String).data) ∧
    (((if (false : Bool) then
         (⟨["eval \"$(/r/bin/conda shell.posix hook)\"\n",
            "conda activate /p\n", "a\nb\n"], "/t", ["bash", "-x", "/t"]⟩ : WrapResult).writes[3]?
       else
         (⟨["eval \"$(/r/bin/conda shell.posix hook)\"\n",
            "conda activate /p\n", "a\nb\n"], "/t", ["bash", "-x", "/t"]⟩ : WrapResult).writes.getLast?)
       = some ("a\nb" ++ "\n")) ∧
     (∀ args : List String, (args.length ≠ 1 ∨ ∀ b ∈ args, ¬ '\n' ∈ b.data) →
       multilineArgs args = false)) :=
  ⟨rfl, by decide,
   wrap_multiline_verbatim false ("/r") ("/p") false false "a\nb" (fun _ => none)
     ("linux") ("/t") _ rfl (by decide)⟩

/-- C7: on a Windows host the call fails (KeyError) when `COMSPEC` is
    absent; an absent `CONDA_BAT` behaves exactly as if it were set to the
    computed default `rootPrefix\condabin\conda.bat` and the call
    succeeds; on a POSIX host outside dev mode an absent `CONDA_EXE`
    behaves exactly as if it were set to `rootPrefix/bin/conda` and the
    call succeeds. -/
theorem wrap_env_fallbacks (rootPrefix envPrefix : String) (devMode dbg : Bool)
    (arguments : List String) (env : String → Option String)
    (platform tmpName : String) :
    (env ("COMSPEC") = none →
      wrap_subprocess_call true rootPrefix envPrefix devMode dbg arguments env
        platform tmpName = Except.error ("COMSPEC")) ∧
    (∀ c, env ("COMSPEC") = some c → env ("CONDA_BAT") = none →
      wrap_subprocess_call true rootPrefix envPrefix devMode dbg arguments env
          platform tmpName
        = wrap_subprocess_call true rootPrefix envPrefix devMode dbg arguments
            (envSet env ("CONDA_BAT") (rootPrefix ++ "\\condabin\\conda.bat"))
            platform tmpName
      ∧ exceptOk (wrap_subprocess_call true rootPrefix envPrefix devMode dbg
          arguments env platform tmpName) = true) ∧
    (env ("CONDA_EXE") = none →
      wrap_subprocess_call false rootPrefix envPrefix false dbg arguments env
          platform tmpName
        = wrap_subprocess_call false rootPrefix envPrefix false dbg arguments
            (envSet env ("CONDA_EXE") (rootPrefix ++ "/bin/conda"))
            platform tmpName
      ∧ exceptOk (wrap_subprocess_call false rootPrefix envPrefix false dbg
          arguments env platform tmpName) = true) := by
  refine ⟨?_, ?_, ?_⟩
  · intro h
    simp only [wrap_subprocess_call, h, if_true]
  · intro c hc hbat
    have h1 : envSet env ("CONDA_BAT") (rootPrefix ++ "\\condabin\\conda.bat")
        ("COMSPEC") = env ("COMSPEC") := envSet_ne _ _ _ _ (by decide)
    constructor
    · simp only [wrap_subprocess_call, hc, hbat, h1, envSet_self,
                 Option.getD_some, Option.getD_none, if_true]
    · simp only [wrap_subprocess_call, hc, if_true]
      rfl
  · intro hexe
    constructor
    · simp [wrap_subprocess_call, hexe, envSet_self]
    · rfl

/-- Witness for `wrap_env_fallbacks` at concrete environments. -/
theorem wrap_env_fallbacks_witness :
    (wrap_subprocess_call true ("/r") ("/p") false false ["x"] (fun _ => none)
       ("win32") ("/t") = Except.error ("COMSPEC")) ∧
    (wrap_subprocess_call true ("/r") ("/p") false false ["x"]
         (fun k => if k = "COMSPEC" then some ("cmd.exe") else none) ("win32") ("/t")
       = wrap_subprocess_call true ("/r") ("/p") false false ["x"]
           (envSet (fun k => if k = "COMSPEC" then some ("cmd.exe") else none)
             ("CONDA_BAT") ("/r" ++ "\\condabin\\conda.bat")) ("win32") ("/t")
     ∧ exceptOk (wrap_subprocess_call true ("/r") ("/p") false false ["x"]
         (fun k => if k = "COMSPEC" then some ("cmd.exe") else none) ("win32") ("/t")) = true) ∧
    (wrap_subprocess_call false ("/r") ("/p") false false ["x"] (fun _ => none)
         ("linux") ("/t")
       = wrap_subprocess_call false ("/r") ("/p") false false ["x"]
           (envSet (fun _ => none) ("CONDA_EXE") ("/r" ++ "/bin/conda")) ("linux") ("/t")
     ∧ exceptOk (wrap_subprocess_call false ("/r") ("/p") false false ["x"]
         (fun _ => none) ("linux") ("/t")) = true) :=
  ⟨(wrap_env_fallbacks ("/r") ("/p") false false ["x"] (fun _ => none)
      ("win32") ("/t")).1 rfl,
   (wrap_env_fallbacks ("/r") ("/p") false false ["x"]
      (fun k => if k = "COMSPEC" then some ("cmd.exe") else none)
      ("win32") ("/t")).2.1 ("cmd.exe") rfl rfl,
   (wrap_env_fallbacks ("/r") ("/p") false false ["x"] (fun _ => none)
      ("linux") ("/t")).2.2 rfl⟩

/-- C8: on a POSIX host in dev mode the result does not depend on
    `CONDA_EXE` (setting it to any value changes nothing), and the
    activation entry point invoked by the hook line is
    `rootPrefix/bin/python -m conda`. -/
theorem wrap_dev_mode_entry_point (rootPrefix envPrefix : String) (dbg : Bool)
    (arguments : List String) (env : String → Option String)
    (platform tmpName v : String) (r : WrapResult)
    (hok : wrap_subprocess_call false rootPrefix envPrefix true dbg arguments env
            platform tmpName = Except.ok r) :
    wrap_subprocess_call false rootPrefix envPrefix true dbg arguments env
        platform tmpName
      = wrap_subprocess_call false rootPrefix envPrefix true dbg arguments
          (envSet env ("CONDA_EXE") v) platform tmpName ∧
    r.writes[(if dbg then (2 : Nat) else 0)]?
      = some ("eval \"$(" ++ quote_for_shell [rootPrefix ++ "/bin/python", "-m",
          "conda", "shell.posix", "hook"] none false ++ ")\"\n") := by
  constructor
  · rfl
  · cases dbg with
    | false =>
      injection hok with h
      subst h
      rfl
    | true =>
      injection hok with h
      subst h
      rfl

/-- Witness for `wrap_dev_mode_entry_point` at a concrete call. -/
theorem wrap_dev_mode_entry_point_witness :
    (wrap_subprocess_call false ("/r") ("/p") true false ["x"] (fun _ => none)
        ("linux") ("/t")
      = Except.ok ⟨["eval \"$(/r/bin/python -m conda shell.posix hook)\"\n",
                    "conda activate /p\n", "['x']\n"], "/t", ["bash", "-x", "/t"]⟩) ∧
    (wrap_subprocess_call false ("/r") ("/p") true false ["x"] (fun _ => none)
        ("linux") ("/t")
      = wrap_subprocess_call false ("/r") ("/p") true false ["x"]
          (envSet (fun _ => none) ("CONDA_EXE") ("/elsewhere/conda")) ("linux") ("/t") ∧
     (⟨["eval \"$(/r/bin/python -m conda shell.posix hook)\"\n",
        "conda activate /p\n", "['x']\n"], "/t", ["bash", "-x", "/t"]⟩ :
          WrapResult).writes[(if (false : Bool) then (2 : Nat) else 0)]?
      = some ("eval \"$(" ++ quote_for_shell ["/r" ++ "/bin/python", "-m", "conda",
          "shell.posix", "hook"] none false ++ ")\"\n")) :=
  ⟨rfl, wrap_dev_mode_entry_point ("/r") ("/p") false ["x"] (fun _ => none)
     ("linux") ("/t") ("/elsewhere/conda") _ rfl⟩

/-- Mode of the POSIX field splitter: outside quotes, inside single
    quotes, inside double quotes, and the two states right after an
    unquoted (`esc`) or double-quoted (`escDQ`) backslash. -/
inductive SplitMode where
  | norm : SplitMode
  | inSQ : SplitMode
  | inDQ : SplitMode
  | esc : SplitMode
  | escDQ : SplitMode

/-- Backtick character. -/
def btc : Char := Char.ofNat 96

/-- POSIX shell lexing of a command line as a plain sequence of words:
    fields are separated by unquoted space, tab or newline; single quotes
    preserve everything up to the closing quote; double quotes preserve
    their content except that backslash escapes a following double quote,
    backslash, dollar or backtick (and a backslash-newline disappears as a
    line continuation); an unquoted backslash escapes the next character.
    A construct whose meaning goes beyond plain words — an operator
    character (`;`, `&`, `|`, `<`, `>`, parentheses), a dollar or backtick
    expansion, a comment or tilde starting a word, an unterminated quote
    or trailing backslash — yields `none` rather than a word list.  `cur`
    is the word being accumulated and `started` records whether a word is
    in progress (so a pair of quotes produces an empty field). -/
def splitFieldsAux : List Char → List Char → Bool → SplitMode → Option (List (List Char))
  | [], cur, started, SplitMode.norm => some (if started then [cur] else [])
  | [], _, _, _ => none
  | c :: rest, cur, started, SplitMode.norm =>
    if c = ' ' ∨ c = '\t' ∨ c = '\n' then
      if started then (splitFieldsAux rest [] false SplitMode.norm).map (fun ws => cur :: ws)
      else splitFieldsAux rest [] false SplitMode.norm
    else if c = bsc then splitFieldsAux rest cur started SplitMode.esc
    else if c = sqc then splitFieldsAux rest cur true SplitMode.inSQ
    else if c = dqc then splitFieldsAux rest cur true SplitMode.inDQ
    else if c = '$' ∨ c = btc ∨ c = ';' ∨ c = '&' ∨ c = '|' ∨ c = '<' ∨ c = '>' ∨
            c = '(' ∨ c = ')' then none
    else if started = false ∧ (c = '#' ∨ c = '~') then none
    else splitFieldsAux rest (cur ++ [c]) true SplitMode.norm
  | c :: rest, cur, started, SplitMode.esc =>
    if c = '\n' then splitFieldsAux rest cur started SplitMode.norm
    else splitFieldsAux rest (cur ++ [c]) true SplitMode.norm
  | c :: rest, cur, started, SplitMode.inSQ =>
    if c = sqc then splitFieldsAux rest cur started SplitMode.norm
    else splitFieldsAux rest (cur ++ [c]) started SplitMode.inSQ
  | c :: rest, cur, started, SplitMode.inDQ =>
    if c = dqc then splitFieldsAux rest cur started SplitMode.norm
    else if c = bsc then splitFieldsAux rest cur started SplitMode.escDQ
    else if c = '$' ∨ c = btc then none
    else splitFieldsAux rest (cur ++ [c]) started SplitMode.inDQ
  | c :: rest, cur, started, SplitMode.escDQ =>
    if c = dqc ∨ c = bsc ∨ c = '$' ∨ c = btc then
      splitFieldsAux rest (cur ++ [c]) started SplitMode.inDQ
    else if c = '\n' then splitFieldsAux rest cur started SplitMode.inDQ
    else splitFieldsAux rest (cur ++ [bsc, c]) started SplitMode.inDQ

/-- POSIX word-splitting of a whole command line. -/
def splitFields (s : String) : Option (List String) :=
  (splitFieldsAux s.data [] false SplitMode.norm).map (List.map String.mk)

example : splitFields ("a 'b c' \"d e\"") = some ["a", "b c", "d e"] := by decide

example : splitFields ("") = some [] := by decide

example : splitFields ("a\\ b") = some ["a b"] := by decide

example : splitFields ("\"x\\$y\"") = some ["x$y"] := by decide

example : splitFields ("a;b") = none := by decide

example : splitFields ("$x") = none := by decide

/-- Content that double quotes reproduce verbatim in a POSIX shell: no
    backslash (which can escape), no dollar and no backtick (which would
    start an expansion). -/
def dqSafe (a : List Char) : Prop :=
  ¬ bsc ∈ a ∧ ¬ '$' ∈ a ∧ ¬ btc ∈ a

/-- Content a POSIX shell lexes, unquoted, as one bare word equal to
    itself: no separators or escapes, no expansion or operator
    characters, and no leading comment or tilde character. -/
def bareWordOk (a : List Char) : Prop :=
  ¬ '\t' ∈ a ∧ ¬ bsc ∈ a ∧ ¬ '$' ∈ a ∧ ¬ btc ∈ a ∧
  ¬ ';' ∈ a ∧ ¬ '&' ∈ a ∧ ¬ '|' ∈ a ∧ ¬ '<' ∈ a ∧ ¬ '>' ∈ a ∧
  ¬ '(' ∈ a ∧ ¬ ')' ∈ a ∧ a.head? ≠ some '#' ∧ a.head? ≠ some '~'

/-- The per-argument hypotheses under which the quote/split round trip
    holds, following the quote choice of `posixQuoteChar`: a single-quoted
    argument only needs the documented limitation (no single quote
    inside); a double-quoted argument must be double-quote safe; a bare
    argument must be a plain word. -/
def okSplitArg (a : List Char) : Prop :=
  a ≠ [] ∧
  (if dqc ∈ a then ¬ sqc ∈ a
   else if sqc ∈ a then dqSafe a
   else if ¬ ' ' ∈ a ∧ ¬ '\n' ∈ a then bareWordOk a
   else dqSafe a)

instance (a : List Char) : Decidable (dqSafe a) := by
  unfold dqSafe; infer_instance

instance (a : List Char) : Decidable (bareWordOk a) := by
  unfold bareWordOk; infer_instance

instance (a : List Char) : Decidable (okSplitArg a) := by
  unfold okSplitArg; infer_instance

/-- A character the splitter consumes literally in an in-progress word in
    normal mode. -/
def plainChar (c : Char) : Prop :=
  ¬ (c = ' ' ∨ c = '\t' ∨ c = '\n') ∧ ¬ c = bsc ∧ ¬ c = sqc ∧ ¬ c = dqc ∧
  ¬ (c = '$' ∨ c = btc ∨ c = ';' ∨ c = '&' ∨ c = '|' ∨ c = '<' ∨ c = '>' ∨
     c = '(' ∨ c = ')')

/-- Lemma: inside single quotes, a quote-free chunk is accumulated
    verbatim. -/
theorem sfa_sq (a : List Char) (h : ¬ sqc ∈ a) :
    ∀ (cs cur : List Char) (st : Bool),
      splitFieldsAux (a ++ cs) cur st SplitMode.inSQ
        = splitFieldsAux cs (cur ++ a) st SplitMode.inSQ := by
  induction a with
  | nil => intro cs cur st; simp
  | cons c t ih =>
    intro cs cur st
    have hc : ¬ c = sqc := fun e => h (e ▸ List.mem_cons_self c t)
    show splitFieldsAux (c :: (t ++ cs)) cur st SplitMode.inSQ = _
    simp only [splitFieldsAux]
    rw [if_neg hc, ih (fun m => h (List.mem_cons_of_mem c m)) cs (cur ++ [c]) st,
        List.append_assoc, List.singleton_append]

/-- Lemma: inside double quotes, a chunk free of double quotes,
    backslashes, dollars and backticks is accumulated verbatim. -/
theorem sfa_dq (a : List Char) (h : ¬ dqc ∈ a) (hb : ¬ bsc ∈ a)
    (hdol : ¬ '$' ∈ a) (hbt : ¬ btc ∈ a) :
    ∀ (cs cur : List Char) (st : Bool),
      splitFieldsAux (a ++ cs) cur st SplitMode.inDQ
        = splitFieldsAux cs (cur ++ a) st SplitMode.inDQ := by
  induction a with
  | nil => intro cs cur st; simp
  | cons c t ih =>
    intro cs cur st
    have hc : ¬ c = dqc := fun e => h (e ▸ List.mem_cons_self c t)
    have hcb : ¬ c = bsc := fun e => hb (e ▸ List.mem_cons_self c t)
    have hcd : ¬ (c = '$' ∨ c = btc) := by
      rintro (e | e)
      · exact hdol (e ▸ List.mem_cons_self c t)
      · exact hbt (e ▸ List.mem_cons_self c t)
    show splitFieldsAux (c :: (t ++ cs)) cur st SplitMode.inDQ = _
    simp only [splitFieldsAux]
    rw [if_neg hc, if_neg hcb, if_neg hcd,
        ih (fun m => h (List.mem_cons_of_mem c m))
           (fun m => hb (List.mem_cons_of_mem c m))
           (fun m => hdol (List.mem_cons_of_mem c m))
           (fun m => hbt (List.mem_cons_of_mem c m)) cs (cur ++ [c]) st,
        List.append_assoc, List.singleton_append]

/-- Lemma: outside quotes, with a word already in progress, a chunk of
    plain characters is accumulated verbatim. -/
theorem sfa_norm (a : List Char) (h : ∀ c ∈ a, plainChar c) :
    ∀ (cs cur : List Char),
      splitFieldsAux (a ++ cs) cur true SplitMode.norm
        = splitFieldsAux cs (cur ++ a) true SplitMode.norm := by
  induction a with
  | nil => intro cs cur; simp
  | cons c t ih =>
    intro cs cur
    obtain ⟨h1, h2, h3, h4, h5⟩ := h c (List.mem_cons_self c t)
    have h6 : ¬ ((true : Bool) = false ∧ (c = '#' ∨ c = '~')) :=
      fun hcon => nomatch hcon.1
    show splitFieldsAux (c :: (t ++ cs)) cur true SplitMode.norm = _
    simp only [splitFieldsAux]
    rw [if_neg h1, if_neg h2, if_neg h3, if_neg h4, if_neg h5, if_neg h6,
        ih (fun c2 m => h c2 (List.mem_cons_of_mem c m)) cs (cur ++ [c]),
        List.append_assoc, List.singleton_append]

/-- Lemma: a double-quote-wrapped safe chunk scans to one accumulated
    word. -/
theorem sfa_consume_dq (a : List Char) (hd : ¬ dqc ∈ a) (hsafe : dqSafe a)
    (cs : List Char) :
    splitFieldsAux (dqc :: (a ++ (dqc :: cs))) [] false SplitMode.norm
      = splitFieldsAux cs a true SplitMode.norm := by
  obtain ⟨hb, hdol, hbt⟩ := hsafe
  simp only [splitFieldsAux]
  rw [if_neg (by decide), if_neg (by decide), if_neg (by decide), if_pos trivial,
      sfa_dq a hd hb hdol hbt (dqc :: cs) [] true]
  simp only [splitFieldsAux]
  rw [if_pos trivial, List.nil_append]

/-- Lemma: scanning one quoted argument leaves the scanner just after it
    with exactly that argument accumulated as the current word. -/
theorem sfa_consume (a : List Char) (ha : okSplitArg a) (cs : List Char) :
    splitFieldsAux (posixQuoteArg a ++ cs) [] false SplitMode.norm
      = splitFieldsAux cs a true SplitMode.norm := by
  obtain ⟨hne, hcase⟩ := ha
  by_cases hd : dqc ∈ a
  · rw [if_pos hd] at hcase
    have he : posixQuoteArg a ++ cs = sqc :: (a ++ (sqc :: cs)) := by
      unfold posixQuoteArg posixQuoteChar
      rw [if_pos hd]
      simp
    rw [he]
    simp only [splitFieldsAux]
    rw [if_neg (by decide), if_neg (by decide), if_pos trivial,
        sfa_sq a hcase (sqc :: cs) [] true]
    simp only [splitFieldsAux]
    rw [if_pos trivial, List.nil_append]
  · rw [if_neg hd] at hcase
    by_cases hs : sqc ∈ a
    · rw [if_pos hs] at hcase
      have he : posixQuoteArg a ++ cs = dqc :: (a ++ (dqc :: cs)) := by
        unfold posixQuoteArg posixQuoteChar
        rw [if_neg hd, if_pos hs]
        simp
      rw [he]
      exact sfa_consume_dq a hd hcase cs
    · rw [if_neg hs] at hcase
      by_cases hsp : ¬ ' ' ∈ a ∧ ¬ '\n' ∈ a
      · rw [if_pos hsp] at hcase
        obtain ⟨htab, hb, hdol, hbt, hsemi, hamp, hpipe, hlt, hgt, hpo, hpc,
                hh1, hh2⟩ := hcase
        have he : posixQuoteArg a ++ cs = a ++ cs := by
          unfold posixQuoteArg posixQuoteChar
          rw [if_neg hd, if_neg hs, if_pos hsp]
          simp
        rw [he]
        match a, hne, hh1, hh2, hsp, htab, hb, hdol, hbt, hsemi, hamp, hpipe,
            hlt, hgt, hpo, hpc, hs, hd with
        | c :: t, _, hh1, hh2, hsp, htab, hb, hdol, hbt, hsemi, hamp, hpipe,
            hlt, hgt, hpo, hpc, hs, hd =>
          have hplain : ∀ c2 ∈ c :: t, plainChar c2 := by
            intro c2 m
            refine ⟨?_, fun e => hb (e ▸ m), fun e => hs (e ▸ m),
                    fun e => hd (e ▸ m), ?_⟩
            · rintro (e | e | e)
              · exact hsp.1 (e ▸ m)
              · exact htab (e ▸ m)
              · exact hsp.2 (e ▸ m)
            · rintro (e | e | e | e | e | e | e | e | e)
              · exact hdol (e ▸ m)
              · exact hbt (e ▸ m)
              · exact hsemi (e ▸ m)
              · exact hamp (e ▸ m)
              · exact hpipe (e ▸ m)
              · exact hlt (e ▸ m)
              · exact hgt (e ▸ m)
              · exact hpo (e ▸ m)
              · exact hpc (e ▸ m)
          obtain ⟨g1, g2, g3, g4, g5⟩ := hplain c (List.mem_cons_self c t)
          have g6 : ¬ (True ∧ (c = '#' ∨ c = '~')) := by
            rintro ⟨-, e | e⟩
            · exact hh1 (by rw [List.head?_cons, e])
            · exact hh2 (by rw [List.head?_cons, e])
          show splitFieldsAux (c :: (t ++ cs)) [] false SplitMode.norm = _
          simp only [splitFieldsAux]
          rw [if_neg g1, if_neg g2, if_neg g3, if_neg g4, if_neg g5, if_neg g6,
              sfa_norm t (fun c2 m => hplain c2 (List.mem_cons_of_mem c m)) cs
                ([] ++ [c]),
              List.nil_append, List.singleton_append]
      · rw [if_neg hsp] at hcase
        have he : posixQuoteArg a ++ cs = dqc :: (a ++ (dqc :: cs)) := by
          unfold posixQuoteArg posixQuoteChar
          rw [if_neg hd, if_neg hs, if_neg hsp]
          simp
        rw [he]
        exact sfa_consume_dq a hd hcase cs

/-- Lemma: scanning the space-joined quoted arguments recovers exactly
    the argument lists, in order. -/
theorem sfa_join (args : List (List Char)) (h : ∀ a ∈ args, okSplitArg a) :
    splitFieldsAux (joinSpace (args.map posixQuoteArg)) [] false SplitMode.norm
      = some args := by
  induction args with
  | nil => rfl
  | cons a rest ih =>
    cases rest with
    | nil =>
      have e1 : joinSpace [posixQuoteArg a] = posixQuoteArg a ++ [] := by
        rw [List.append_nil]
        rfl
      show splitFieldsAux (joinSpace [posixQuoteArg a]) [] false SplitMode.norm = _
      rw [e1, sfa_consume a (h a (List.mem_cons_self a [])) []]
      rfl
    | cons b t =>
      show splitFieldsAux (posixQuoteArg a ++
          (' ' :: joinSpace ((b :: t).map posixQuoteArg))) [] false SplitMode.norm = _
      rw [sfa_consume a (h a (List.mem_cons_self a (b :: t)))]
      simp only [splitFieldsAux]
      rw [if_pos (Or.inl trivial), if_pos trivial,
          ih (fun a2 m => h a2 (List.mem_cons_of_mem a m))]
      rfl

/-- Lemma: a non-empty string has non-empty character data. -/
theorem string_data_ne_nil (a : String) (h : a ≠ "") : a.data ≠ [] := by
  intro e
  apply h
  cases a with
  | mk d => rw [show d = [] from e]

/-- C6 counterexample: quoting the single empty argument produces the
    empty command line, which splits into zero words — the argument is
    dropped even though no quote-character limitation is involved. -/
theorem quote_split_empty_arg_cex :
    splitFields (quote_for_shell [""] (some "bash") false) = some [] ∧
    (splitFields (quote_for_shell [""] (some "bash") false)).map List.length ≠ some 1 := by
  decide

/-- C6 amended: for POSIX-family shells, splitting the quoted command
    line by POSIX lexing rules recovers exactly the original arguments,
    in order, provided each argument is non-empty and — per the quoting
    branch it falls into — avoids what that branch cannot protect:
    a single-quoted argument must avoid the documented limitation (no
    single quote inside); a double-quoted argument must contain no
    backslash, dollar or backtick; a bare argument must also be free of
    tabs and operator characters and must not start a comment or tilde
    expansion. -/
theorem quote_split_recovers_arguments (args : List String) (sh : String)
    (hsh : sh ≠ "cmd.exe")
    (h : ∀ a ∈ args, a ≠ "" ∧ okSplitArg a.data) :
    splitFields (quote_for_shell args (some sh) false) = some args := by
  have hq : quote_for_shell args (some sh) false
      = String.mk (joinSpace (args.map fun a => posixQuoteArg a.data)) := by
    show (if sh = "cmd.exe" then _ else _) = _
    rw [if_neg hsh]
  rw [hq]
  show (splitFieldsAux (joinSpace (args.map fun a => posixQuoteArg a.data))
          [] false SplitMode.norm).map (List.map String.mk) = some args
  have e : args.map (fun a => posixQuoteArg a.data)
      = (args.map String.data).map posixQuoteArg := by
    rw [List.map_map]
    rfl
  rw [e, sfa_join (args.map String.data)
        (fun aL m => by
          rcases List.mem_map.mp m with ⟨a, ma, rfl⟩
          exact (h a ma).2)]
  show some (List.map String.mk (args.map String.data)) = some args
  rw [List.map_map, show (String.mk ∘ String.data) = id from funext fun s => rfl,
      List.map_id]

/-- Witness for `quote_split_recovers_arguments` on arguments exercising
    all three quoting branches. -/
theorem quote_split_recovers_arguments_witness :
    (("bash" : String) ≠ "cmd.exe") ∧
    (∀ a ∈ (["a b", "c\"d", "e'f"] : List String), a ≠ "" ∧ okSplitArg a.data) ∧
    splitFields (quote_for_shell ["a b", "c\"d", "e'f"] (some "bash") false)
      = some ["a b", "c\"d", "e'f"] :=
  ⟨by decide, by decide,
   quote_split_recovers_arguments ["a b", "c\"d", "e'f"] ("bash") (by decide)
     (by decide)⟩

example : splitFields (quote_for_shell ["a\\", "b"] (some "bash") false)
    = some ["a b"] := by decide

example : ¬ okSplitArg ("a\\" : String).data := by decide

example : ¬ okSplitArg ("a;b" : String).data := by decide
